import Mathlib

/-!
Shallow embedding of the CitizenVote backend (Express + SQLite) data-integrity
and aggregation core: the SQLite tables become lists of records in a `Store`,
and each HTTP handler that the claims mention becomes a pure Lean function on
the `Store`.  JavaScript truthiness on request fields is modelled explicitly
(`Option` values, with `none` for absent/null and the empty string / zero as
the falsy payloads), and SQL aggregation queries are modelled row by row:
`COUNT` becomes `List.length` of a `List.filter`, `GROUP BY` becomes explicit
key deduplication, and `ORDER BY` becomes `List.insertionSort` with the order
relation written in the query.  SQLite leaves the relative order of rows that
tie on every `ORDER BY` key unspecified; the embedding realises that
unspecified order as the table-scan order that the sort happens to produce.
-/

namespace CitizenVote

/-- Row of the `districts` table (`id, name, governorate_id, official_voters`). -/
structure District where
  id : Nat
  name : String
  governorate_id : Option Nat
  official_voters : Int
deriving DecidableEq, Repr

/-- Row of the `candidates` table (`id, name, district_id, target`). -/
structure Candidate where
  id : Nat
  name : String
  district_id : Option Nat
  target : Int
deriving DecidableEq, Repr

/-- Row of the `voters` table.  `full_name` is `NOT NULL` in the schema but the
update handler can write `full_name || null`, so the model keeps it optional. -/
structure Voter where
  id : Nat
  candidate_id : Nat
  assistant_id : Option Nat
  full_name : Option String
  dob : Option String
  district_id : Option Nat
  polling_center : Option String
  electoral_card : Option String
deriving DecidableEq, Repr

/-- The relational store: the `party` singleton row's threshold, the three
tables the claims touch, and the next `AUTOINCREMENT` rowid. -/
structure Store where
  partyThreshold : Int
  districts : List District
  candidates : List Candidate
  voters : List Voter
  nextId : Nat
deriving DecidableEq, Repr

def emptyStore : Store := ⟨0, [], [], [], 0⟩

/-- JavaScript truthiness of an optional id (`undefined`, `null` and `0` are falsy). -/
def truthyN : Option Nat → Bool
  | none => false
  | some n => decide (n ≠ 0)

/-- JavaScript truthiness of an optional string (`undefined`, `null` and the
empty string are falsy). -/
def truthyS : Option String → Bool
  | none => false
  | some s => decide (s ≠ "")

/-- The `x || null` idiom on an optional id. -/
def jsOrNullN (x : Option Nat) : Option Nat :=
  if truthyN x then x else none

/-- The `x || null` idiom on an optional string. -/
def jsOrNullS (x : Option String) : Option String :=
  if truthyS x then x else none

/-- Outcome of `POST /api/voters`: a 400 validation failure, the soft
duplicate response (200 with `duplicate:true`), or a created row id. -/
inductive SubmitResult where
  | validationError
  | duplicate
  | created (id : Nat)
deriving DecidableEq, Repr

/-- The `POST /api/voters` handler: resolve `aid` into `assistant_id`, reject
when `candidate_id` or `full_name` is falsy, return the soft duplicate outcome
when a non-empty `electoral_card` already exists, and otherwise insert one row. -/
def submitVoter (s : Store) (candidate_id assistant_id : Option Nat)
    (full_name dob : Option String) (district_id : Option Nat)
    (polling_center electoral_card : Option String) (aid : Option Nat) :
    SubmitResult × Store :=
  let asst := if !truthyN assistant_id && truthyN aid then aid else assistant_id
  if !truthyN candidate_id || !truthyS full_name then
    (.validationError, s)
  else if truthyS electoral_card &&
      s.voters.any (fun v => decide (v.electoral_card = electoral_card)) then
    (.duplicate, s)
  else
    (.created s.nextId,
      { s with
        voters := s.voters ++ [{
          id := s.nextId,
          candidate_id := candidate_id.getD 0,
          assistant_id := jsOrNullN asst,
          full_name := full_name,
          dob := jsOrNullS dob,
          district_id := jsOrNullN district_id,
          polling_center := jsOrNullS polling_center,
          electoral_card := jsOrNullS electoral_card }],
        nextId := s.nextId + 1 })

/-- Example store used by the concrete witnesses: one district, two
candidates, three voters (two for candidate 1, one for candidate 2). -/
def exS : Store :=
  { partyThreshold := 20000,
    districts := [⟨1, "North", none, 100⟩],
    candidates := [⟨1, "Alice", some 1, 10⟩, ⟨2, "Bob", none, 0⟩],
    voters :=
      [⟨1, 1, none, some "A", some "1990-01-01", some 1, none, some "C100"⟩,
       ⟨2, 1, none, some "B", none, none, none, none⟩,
       ⟨3, 2, none, some "A", some "1990-01-01", none, none, some "C200"⟩],
    nextId := 4 }

/-- Claim C1: on an ingestion call that passes validation and carries a
non-empty electoral card, the handler returns the soft duplicate outcome and
leaves the store unchanged when some existing voter row holds exactly that
card value, and otherwise appends exactly one voter row (carrying the card)
and returns the created id. -/
theorem submit_voter_duplicate_policy (s : Store) (cid : Nat)
    (asst aid did : Option Nat) (name card : String) (dob pc : Option String)
    (hcid : cid ≠ 0) (hname : name ≠ "") (hcard : card ≠ "") :
    ((∃ v ∈ s.voters, v.electoral_card = some card) →
      submitVoter s (some cid) asst (some name) dob did pc (some card) aid
        = (.duplicate, s)) ∧
    ((∀ v ∈ s.voters, v.electoral_card ≠ some card) →
      ∃ nv,
        submitVoter s (some cid) asst (some name) dob did pc (some card) aid
          = (.created s.nextId,
             { s with voters := s.voters ++ [nv], nextId := s.nextId + 1 }) ∧
        nv.electoral_card = some card ∧ nv.candidate_id = cid ∧
        nv.full_name = some name) := by
  constructor
  · rintro ⟨v, hv, hvcard⟩
    unfold submitVoter
    simp only [truthyN, truthyS, decide_eq_true_eq]
    rw [if_neg, if_pos]
    · rw [Bool.and_eq_true, decide_eq_true_eq]
      refine ⟨by simp [hcard], ?_⟩
      rw [List.any_eq_true]
      exact ⟨v, hv, by simp [hvcard]⟩
    · simp [hcid, hname]
  · intro hnone
    unfold submitVoter
    rw [if_neg, if_neg]
    · exact ⟨_, rfl, by simp [jsOrNullS, truthyS, hcard], rfl, rfl⟩
    · rw [Bool.and_eq_true]
      rintro ⟨-, hany⟩
      rw [List.any_eq_true] at hany
      obtain ⟨v, hv, hvc⟩ := hany
      rw [decide_eq_true_eq] at hvc
      exact hnone v hv hvc
    · simp [truthyN, truthyS, hcid, hname]

/-- Concrete instantiation of claim C1: resubmitting card `C100` into the
example store is reported as a duplicate and the store is unchanged, while a
fresh card `C999` appends exactly one row. -/
theorem submit_voter_duplicate_policy_witness :
    submitVoter exS (some 1) none (some "Z") none none none (some "C100") none
      = (.duplicate, exS) ∧
    ∃ nv,
      submitVoter exS (some 1) none (some "Z") none none none (some "C999") none
        = (.created exS.nextId,
           { exS with voters := exS.voters ++ [nv], nextId := exS.nextId + 1 }) ∧
      nv.electoral_card = some "C999" ∧ nv.candidate_id = 1 ∧
      nv.full_name = some "Z" := by
  refine ⟨?_, ?_⟩
  · exact (submit_voter_duplicate_policy exS 1 none none none "Z" "C100" none none
      (by decide) (by decide) (by decide)).1 (by decide)
  · exact (submit_voter_duplicate_policy exS 1 none none none "Z" "C999" none none
      (by decide) (by decide) (by decide)).2 (by decide)

/-- Claim C4: an ingestion call whose `candidateId` or `fullName` is absent or
empty fails with the validation error and leaves the store unchanged. -/
theorem submit_voter_validation (s : Store) (candidate_id asst aid did : Option Nat)
    (full_name dob pc card : Option String)
    (h : candidate_id = none ∨ full_name = none ∨ full_name = some "") :
    submitVoter s candidate_id asst full_name dob did pc card aid
      = (.validationError, s) := by
  unfold submitVoter
  rw [if_pos]
  rcases h with h | h | h <;> subst h <;> simp [truthyN, truthyS]

/-- Concrete instantiation of claim C4: a call with no candidate id and a call
with an empty full name both fail validation and change nothing. -/
theorem submit_voter_validation_witness :
    submitVoter exS none none (some "Z") none none none none none
      = (.validationError, exS) ∧
    submitVoter exS (some 1) none (some "") none none none none none
      = (.validationError, exS) :=
  ⟨submit_voter_validation exS none none none none (some "Z") none none none
      (Or.inl rfl),
   submit_voter_validation exS (some 1) none none none (some "") none none none
      (Or.inr (Or.inr rfl))⟩

/-- SQLite `ROUND(x, 1)` on the non-negative values produced by the progress
queries: round to one decimal place, halves away from zero. -/
def round1 (q : ℚ) : ℚ := (⌊q * 10 + 1 / 2⌋ : ℚ) / 10

/-- Output row of the candidate progress query
(`id, name, district, target, supporters, pct`). -/
structure CandRow where
  id : Nat
  name : String
  district : Option String
  target : Int
  supporters : Nat
  pct : ℚ
deriving DecidableEq, Repr

/-- The `ORDER BY supporters DESC, c.id ASC` relation of the candidate
progress query. -/
def candLE (a b : CandRow) : Prop :=
  b.supporters < a.supporters ∨ (a.supporters = b.supporters ∧ a.id ≤ b.id)

instance : DecidableRel candLE := fun a b => by
  unfold candLE
  infer_instance

instance : IsTotal CandRow candLE :=
  ⟨by intro a b; unfold candLE; omega⟩

instance : IsTrans CandRow candLE :=
  ⟨by intro a b c; unfold candLE; omega⟩

/-- One output row of `GET /api/candidates` for candidate `c`: the district
label through `LEFT JOIN districts`, `supporters = COUNT(v.id)` over the
voters referencing `c`, and
`pct = ROUND(CASE WHEN target > 0 THEN 100.0 * supporters / target ELSE 0 END, 1)`. -/
def candRow (s : Store) (c : Candidate) : CandRow :=
  { id := c.id,
    name := c.name,
    district := (s.districts.find? (fun d => decide (c.district_id = some d.id))).map
      District.name,
    target := c.target,
    supporters := (s.voters.filter (fun v => decide (v.candidate_id = c.id))).length,
    pct :=
      if 0 < c.target then
        round1 ((100 * ((s.voters.filter
            (fun v => decide (v.candidate_id = c.id))).length : ℚ)) / (c.target : ℚ))
      else 0 }

/-- The `GET /api/candidates` query: one row per candidate,
`ORDER BY supporters DESC, c.id ASC`. -/
def candidatesQuery (s : Store) : List CandRow :=
  List.insertionSort candLE (s.candidates.map (candRow s))

/-- Claim C2: the candidate progress list holds exactly one row per candidate;
each row's `supporters` is the exact count of voter rows referencing that
candidate and `pct` is `round(100 * supporters / target, 1)` when the target
is positive and `0` otherwise; and the list is ordered by supporters
descending with ties broken by candidate id ascending. -/
theorem candidate_progress (s : Store) :
    List.Sorted candLE (candidatesQuery s) ∧
    (candidatesQuery s).Perm (s.candidates.map (candRow s)) ∧
    ∀ c ∈ s.candidates,
      (candRow s c).supporters
          = (s.voters.filter (fun v => decide (v.candidate_id = c.id))).length ∧
      (candRow s c).pct
          = (if 0 < c.target then
              round1 ((100 * ((s.voters.filter
                  (fun v => decide (v.candidate_id = c.id))).length : ℚ))
                / (c.target : ℚ))
            else 0) :=
  ⟨List.sorted_insertionSort candLE _, List.perm_insertionSort candLE _,
   fun _ _ => ⟨rfl, rfl⟩⟩

def exC1 : Candidate := ⟨1, "Alice", some 1, 10⟩

/-- Concrete instantiation of claim C2 on the example store: Alice (target 10)
has 2 supporters, so her `pct` is `20.0`, and the whole output is sorted. -/
theorem candidate_progress_witness :
    (candRow exS exC1).supporters = 2 ∧ (candRow exS exC1).pct = 20 ∧
    List.Sorted candLE (candidatesQuery exS) := by
  have h := candidate_progress exS
  refine ⟨((h.2.2 exC1 (by decide)).1).trans (by decide), ?_, h.1⟩
  have hlen :
      (List.filter (fun v => decide (v.candidate_id = exC1.id)) exS.voters).length
        = 2 := by decide
  rw [(h.2.2 exC1 (by decide)).2, hlen, if_pos (by decide : (0:ℤ) < exC1.target)]
  unfold round1
  have hfl : ⌊100 * ((2:ℕ):ℚ) / (exC1.target:ℚ) * 10 + 1 / 2⌋ = (200:ℤ) := by
    have ht : (exC1.target:ℚ) = 10 := by norm_num [exC1]
    rw [ht, Int.floor_eq_iff]
    constructor <;> norm_num
  rw [hfl]
  norm_num

/-- Deduplication keeping the first occurrence of each element, modelling the
order in which `GROUP BY` emits its group keys. -/
def dedupFirst {α : Type} [DecidableEq α] : List α → List α
  | [] => []
  | a :: l => a :: (dedupFirst l).filter (fun b => decide (b ≠ a))

theorem mem_dedupFirst {α : Type} [DecidableEq α] {l : List α} {x : α} :
    x ∈ dedupFirst l ↔ x ∈ l := by
  induction l with
  | nil => simp [dedupFirst]
  | cons a l ih =>
    simp only [dedupFirst, List.mem_cons, List.mem_filter, decide_eq_true_eq, ih]
    by_cases hx : x = a
    · simp [hx]
    · simp [hx]

theorem nodup_dedupFirst {α : Type} [DecidableEq α] (l : List α) :
    (dedupFirst l).Nodup := by
  induction l with
  | nil => simp [dedupFirst]
  | cons a l ih =>
    rw [dedupFirst, List.nodup_cons]
    exact ⟨by simp [List.mem_filter], ih.filter _⟩

/-- The `WHERE v1.full_name <> '' AND v1.dob IS NOT NULL` filter of the
fuzzy-duplicate query (in SQL a `NULL` name makes `full_name <> ''` not true). -/
def eligible (v : Voter) : Bool :=
  (match v.full_name with
   | some n => decide (n ≠ "")
   | none => false) && v.dob.isSome

def keyName (v : Voter) : String := v.full_name.getD ""

def keyDob (v : Voter) : String := v.dob.getD ""

/-- Rows of one `(full_name, dob)` group of the fuzzy-duplicate query, in
table-scan order. -/
def fuzzyGroup (s : Store) (name dob : String) : List Voter :=
  s.voters.filter (fun v =>
    eligible v && decide (keyName v = name) && decide (keyDob v = dob))

/-- Voter rows matching `(name, dob)`, written the way the spec describes the
grouping: non-empty `full_name` equal to `name` and non-null `dob` equal to
`dob`. -/
def specGroup (s : Store) (name dob : String) : List Voter :=
  s.voters.filter (fun v =>
    decide (v.full_name = some name) && decide (name ≠ "") &&
      decide (v.dob = some dob))

theorem fuzzyGroup_eq_specGroup (s : Store) (name dob : String) :
    fuzzyGroup s name dob = specGroup s name dob := by
  unfold fuzzyGroup specGroup
  refine List.filter_congr ?_
  intro v _
  rw [Bool.eq_iff_iff]
  rcases hf : v.full_name with _ | n <;> rcases hd : v.dob with _ | d <;>
    simp only [eligible, keyName, keyDob, hf, hd, Option.getD_some, Option.getD_none,
      Option.isSome_some, Option.isSome_none, Bool.and_eq_true, decide_eq_true_eq,
      Bool.and_false, Bool.false_and, Bool.and_true, Option.some.injEq,
      reduceCtorEq] <;> try simp
  intro _
  constructor
  · rintro ⟨hne, h1⟩
    subst h1
    exact ⟨rfl, hne⟩
  · rintro ⟨h1, hne⟩
    subst h1
    exact ⟨hne, rfl⟩

/-- Output row of the fuzzy-duplicate query
(`full_name, dob, cnt, candidate_ids`). -/
structure FuzzyRow where
  full_name : String
  dob : String
  cnt : Nat
  candidate_ids : List Nat
deriving DecidableEq, Repr

/-- The `SELECT` list of the fuzzy-duplicate query for one group key:
`COUNT(*)` and `GROUP_CONCAT(v1.candidate_id)` — no `DISTINCT`, the
concatenation holds one entry per row of the group, in scan order. -/
def fuzzyRowOf (s : Store) (k : String × String) : FuzzyRow :=
  { full_name := k.1, dob := k.2,
    cnt := (fuzzyGroup s k.1 k.2).length,
    candidate_ids := (fuzzyGroup s k.1 k.2).map Voter.candidate_id }

/-- The `ORDER BY cnt DESC, full_name` relation. -/
def fuzzyLE (a b : FuzzyRow) : Prop :=
  b.cnt < a.cnt ∨ (a.cnt = b.cnt ∧ a.full_name ≤ b.full_name)

instance : DecidableRel fuzzyLE := fun a b => by
  unfold fuzzyLE
  infer_instance

instance : IsTotal FuzzyRow fuzzyLE := ⟨by
  intro a b
  unfold fuzzyLE
  rcases Nat.lt_trichotomy a.cnt b.cnt with h | h | h
  · exact Or.inr (Or.inl h)
  · rcases le_total a.full_name b.full_name with hs | hs
    · exact Or.inl (Or.inr ⟨h, hs⟩)
    · exact Or.inr (Or.inr ⟨h.symm, hs⟩)
  · exact Or.inl (Or.inl h)⟩

instance : IsTrans FuzzyRow fuzzyLE := ⟨by
  intro a b c hab hbc
  unfold fuzzyLE at hab hbc ⊢
  rcases hab with h1 | ⟨h1, h1le⟩ <;> rcases hbc with h2 | ⟨h2, h2le⟩
  · exact Or.inl (by omega)
  · exact Or.inl (by omega)
  · exact Or.inl (by omega)
  · exact Or.inr ⟨by omega, le_trans h1le h2le⟩⟩

/-- The distinct `(full_name, dob)` group keys, in first-occurrence order. -/
def fuzzyKeys (s : Store) : List (String × String) :=
  dedupFirst ((s.voters.filter eligible).map (fun v => (keyName v, keyDob v)))

/-- The `GET /api/fuzzy-duplicates` query: group the eligible voters by
`(full_name, dob)`, keep `HAVING COUNT(*) > 1`, `ORDER BY cnt DESC, full_name`. -/
def fuzzyDuplicates (s : Store) : List FuzzyRow :=
  List.insertionSort fuzzyLE
    (((fuzzyKeys s).map (fuzzyRowOf s)).filter (fun r => decide (1 < r.cnt)))

/-- Store exhibiting claim C3's failure: two voters with the same
`(full_name, dob)` collected by the same candidate. -/
def exF : Store :=
  { partyThreshold := 0,
    districts := [],
    candidates := [⟨1, "Alice", none, 0⟩],
    voters :=
      [⟨1, 1, none, some "A", some "1990-01-01", none, none, none⟩,
       ⟨2, 1, none, some "A", some "1990-01-01", none, none, none⟩],
    nextId := 3 }

/-- Counterexample to claim C3 as stated: with two matching rows under the
same candidate, `GROUP_CONCAT(v1.candidate_id)` lists candidate id 1 twice, so
`candidate_ids` is not a set of distinct ids. -/
theorem fuzzy_duplicates_counterexample :
    fuzzyDuplicates exF = [⟨"A", "1990-01-01", 2, [1, 1]⟩] ∧
    ¬ List.Nodup [1, 1] := by
  constructor
  · decide
  · decide

/-- Claim C3 as amended: the fuzzy-duplicate listing is ordered by count
descending then name ascending; every returned row is a `(full_name, dob)`
group with more than one matching voter row, `cnt` is that group's exact row
count, and `candidate_ids` lists the candidate id of every matching row (one
entry per row, so a candidate with several matching rows appears several
times) — its members are exactly the candidates holding a matching row; every
group with more than one row is returned; and no group key appears twice. -/
theorem fuzzy_duplicates_amended (s : Store) :
    List.Sorted fuzzyLE (fuzzyDuplicates s) ∧
    (∀ r ∈ fuzzyDuplicates s,
      1 < r.cnt ∧
      r.cnt = (specGroup s r.full_name r.dob).length ∧
      r.candidate_ids = (specGroup s r.full_name r.dob).map Voter.candidate_id ∧
      ∀ cid, cid ∈ r.candidate_ids ↔
        ∃ v ∈ specGroup s r.full_name r.dob, v.candidate_id = cid) ∧
    (∀ name dob, 1 < (specGroup s name dob).length →
      ∃ r ∈ fuzzyDuplicates s, r.full_name = name ∧ r.dob = dob) ∧
    List.Pairwise (fun a b : FuzzyRow => a.full_name ≠ b.full_name ∨ a.dob ≠ b.dob)
      (fuzzyDuplicates s) := by
  have hperm := List.perm_insertionSort fuzzyLE
    (((fuzzyKeys s).map (fuzzyRowOf s)).filter (fun r => decide (1 < r.cnt)))
  refine ⟨List.sorted_insertionSort fuzzyLE _, ?_, ?_, ?_⟩
  · intro r hr
    have hr2 := hperm.mem_iff.mp hr
    rw [List.mem_filter] at hr2
    obtain ⟨hmem, hcnt⟩ := hr2
    rw [decide_eq_true_eq] at hcnt
    rw [List.mem_map] at hmem
    obtain ⟨k, _, hk⟩ := hmem
    subst hk
    refine ⟨hcnt, ?_, ?_, ?_⟩
    · show (fuzzyGroup s k.1 k.2).length = (specGroup s k.1 k.2).length
      rw [fuzzyGroup_eq_specGroup]
    · show (fuzzyGroup s k.1 k.2).map Voter.candidate_id
          = (specGroup s k.1 k.2).map Voter.candidate_id
      rw [fuzzyGroup_eq_specGroup]
    · intro cid
      show cid ∈ (fuzzyGroup s k.1 k.2).map Voter.candidate_id ↔
        ∃ v ∈ specGroup s k.1 k.2, v.candidate_id = cid
      rw [fuzzyGroup_eq_specGroup, List.mem_map]
  · intro name dob hlen
    obtain ⟨v, hv⟩ := List.exists_mem_of_length_pos (by omega :
      0 < (specGroup s name dob).length)
    have hv2 := hv
    rw [specGroup, List.mem_filter, Bool.and_eq_true, Bool.and_eq_true,
      decide_eq_true_eq, decide_eq_true_eq, decide_eq_true_eq] at hv2
    obtain ⟨hvv, ⟨hvname, hne⟩, hvdob⟩ := hv2
    have hkey : (name, dob) ∈ fuzzyKeys s := by
      rw [fuzzyKeys, mem_dedupFirst, List.mem_map]
      refine ⟨v, ?_, ?_⟩
      · rw [List.mem_filter]
        refine ⟨hvv, ?_⟩
        rw [eligible, hvname, hvdob]
        simp [hne]
      · rw [keyName, keyDob, hvname, hvdob]
        rfl
    refine ⟨fuzzyRowOf s (name, dob), ?_, rfl, rfl⟩
    have hmem : fuzzyRowOf s (name, dob) ∈
        (((fuzzyKeys s).map (fuzzyRowOf s)).filter (fun r => decide (1 < r.cnt))) := by
      rw [List.mem_filter]
      refine ⟨List.mem_map_of_mem _ hkey, ?_⟩
      rw [decide_eq_true_eq]
      show 1 < (fuzzyGroup s name dob).length
      rw [fuzzyGroup_eq_specGroup]
      exact hlen
    exact hperm.mem_iff.mpr hmem
  · have hsymm : ∀ {a b : FuzzyRow},
        (a.full_name ≠ b.full_name ∨ a.dob ≠ b.dob) →
        (b.full_name ≠ a.full_name ∨ b.dob ≠ a.dob) := by
      rintro a b (h | h)
      · exact Or.inl (Ne.symm h)
      · exact Or.inr (Ne.symm h)
    refine (List.Perm.pairwise_iff hsymm hperm).mpr ?_
    refine List.Pairwise.sublist (List.filter_sublist _) ?_
    rw [List.pairwise_map]
    refine List.Pairwise.imp ?_ (nodup_dedupFirst _)
    intro a b hab
    by_contra hcon
    push_neg at hcon
    obtain ⟨h1, h2⟩ := hcon
    exact hab (Prod.ext h1 h2)

/-- The single fuzzy-duplicate row of the example store: voter "A" born
1990-01-01 was submitted under candidates 1 and 2. -/
def exRow : FuzzyRow := ⟨"A", "1990-01-01", 2, [1, 2]⟩

/-- Concrete instantiation of the amended claim C3 on the example store. -/
theorem fuzzy_duplicates_amended_witness :
    1 < exRow.cnt ∧
    exRow.cnt = (specGroup exS exRow.full_name exRow.dob).length ∧
    exRow.candidate_ids = (specGroup exS exRow.full_name exRow.dob).map
      Voter.candidate_id := by
  have h := ((fuzzy_duplicates_amended exS).2.1) exRow (by decide)
  exact ⟨h.1, h.2.1, h.2.2.1⟩

/-- A numeric request-body field as JavaScript number coercion sees it:
absent, a value that coerces to NaN (for example a non-numeric string), or a
numeric value. -/
inductive NumInput where
  | missing
  | nan
  | intVal (n : Int)
deriving DecidableEq, Repr

/-- The `+x || 0` coercion used for `official_voters`, `target` and the
`PUT /api/party` threshold: NaN and missing input fall back to `0`; any
numeric value — negative included — passes through unchanged. -/
def plusOrZero : NumInput → Int
  | .missing => 0
  | .nan => 0
  | .intVal n => n

/-- The `Math.max(0, parseInt(req.body.threshold || 0, 10) || 0)` coercion of
`POST /api/party-progress`: the only numeric admin field clamped to be
non-negative. -/
def thresholdClamp : NumInput → Int
  | .missing => 0
  | .nan => 0
  | .intVal n => max 0 n

/-- The `POST /api/districts` handler: 400 when `name` is falsy, otherwise
insert a district storing `official_voters` as `+official_voters || 0`. -/
def createDistrict (s : Store) (gov : Option Nat) (name : Option String)
    (ov : NumInput) : Option (Nat × Store) :=
  if truthyS name then
    some (s.nextId,
      { s with
        districts := s.districts ++ [⟨s.nextId, name.getD "", jsOrNullN gov, plusOrZero ov⟩],
        nextId := s.nextId + 1 })
  else none

/-- The `POST /api/candidates` handler: 400 when `name` is falsy, otherwise
insert a candidate storing `target` as `+target || 0`. -/
def createCandidate (s : Store) (name : Option String) (district_id : Option Nat)
    (target : NumInput) : Option (Nat × Store) :=
  if truthyS name then
    some (s.nextId,
      { s with
        candidates := s.candidates ++
          [⟨s.nextId, name.getD "", jsOrNullN district_id, plusOrZero target⟩],
        nextId := s.nextId + 1 })
  else none

/-- The `POST /api/party-progress` handler (admin threshold save). -/
def setPartyThreshold (s : Store) (th : NumInput) : Store :=
  { s with partyThreshold := thresholdClamp th }

/-- The `PUT /api/party` upsert, which stores `+threshold || 0`. -/
def putPartyThreshold (s : Store) (th : NumInput) : Store :=
  { s with partyThreshold := plusOrZero th }

/-- Counterexample to claim C5 as stated: `POST /api/districts` with
`official_voters = -5` stores `-5`, a negative value — `+x || 0` does not
clamp negative numeric input to 0. -/
theorem admin_negative_counterexample :
    createDistrict emptyStore none (some "D") (NumInput.intVal (-5))
      = some (0, { partyThreshold := 0,
                   districts := [⟨0, "D", none, -5⟩],
                   candidates := [], voters := [], nextId := 1 }) ∧
    ¬ (0 : Int) ≤ -5 := by
  constructor
  · decide
  · decide

/-- Claim C5 as amended: invalid or missing numeric input is stored as 0, and
the `POST /api/party-progress` threshold is additionally clamped to be
non-negative; but the district `official_voters`, candidate `target` and
`PUT /api/party` threshold fields are stored by `+x || 0`, which passes
negative numeric input through unchanged. -/
theorem admin_numeric_coercion_amended :
    (plusOrZero .missing = 0 ∧ plusOrZero .nan = 0) ∧
    (∀ n : Int, plusOrZero (.intVal n) = n) ∧
    (∀ x : NumInput, 0 ≤ thresholdClamp x ∧ thresholdClamp .missing = 0 ∧
      thresholdClamp .nan = 0) ∧
    (∀ (s : Store) (x : NumInput),
      (setPartyThreshold s x).partyThreshold = thresholdClamp x ∧
      (putPartyThreshold s x).partyThreshold = plusOrZero x) ∧
    (∀ (s : Store) (gov : Option Nat) (name : Option String) (ov : NumInput),
      truthyS name = true →
      ∃ r, createDistrict s gov name ov = some r ∧
        r.2.districts.map District.official_voters
          = s.districts.map District.official_voters ++ [plusOrZero ov]) ∧
    (∀ (s : Store) (name : Option String) (did : Option Nat) (tgt : NumInput),
      truthyS name = true →
      ∃ r, createCandidate s name did tgt = some r ∧
        r.2.candidates.map Candidate.target
          = s.candidates.map Candidate.target ++ [plusOrZero tgt]) := by
  refine ⟨⟨rfl, rfl⟩, fun _ => rfl, ?_, fun _ _ => ⟨rfl, rfl⟩, ?_, ?_⟩
  · intro x
    refine ⟨?_, rfl, rfl⟩
    cases x with
    | missing => exact le_refl 0
    | nan => exact le_refl 0
    | intVal n => exact le_max_left 0 n
  · intro s gov name ov hname
    rw [createDistrict, if_pos hname]
    exact ⟨_, rfl, by simp⟩
  · intro s name did tgt hname
    rw [createCandidate, if_pos hname]
    exact ⟨_, rfl, by simp⟩

/-- Concrete instantiation of the amended claim C5: the party-progress
threshold clamp turns `-7` into a non-negative value, plain coercion keeps
`-7`, and creating a district with `official_voters = 3` stores `3`. -/
theorem admin_numeric_coercion_amended_witness :
    0 ≤ thresholdClamp (NumInput.intVal (-7)) ∧
    plusOrZero (NumInput.intVal (-7)) = -7 ∧
    ((createDistrict emptyStore none (some "D") (NumInput.intVal 3)).map
      (fun r => r.2.districts.map District.official_voters)) = some [3] := by
  have h := admin_numeric_coercion_amended
  refine ⟨(h.2.2.1 (NumInput.intVal (-7))).1, h.2.1 (-7), ?_⟩
  obtain ⟨r, hr, hmap⟩ := h.2.2.2.2.1 emptyStore none (some "D") (NumInput.intVal 3)
    (by decide)
  rw [hr]
  simp [hmap, emptyStore, plusOrZero]

/-- Output row of the district distribution queries
(`district_id, district, official_voters, supporters`). -/
structure DistRow where
  district_id : Nat
  district : String
  official_voters : Int
  supporters : Nat
deriving DecidableEq, Repr

/-- The `ORDER BY supporters DESC, official_voters DESC` relation of
`GET /api/party-districts`. -/
def pdLE (a b : DistRow) : Prop :=
  b.supporters < a.supporters ∨
    (a.supporters = b.supporters ∧ b.official_voters ≤ a.official_voters)

instance : DecidableRel pdLE := fun a b => by
  unfold pdLE
  infer_instance

instance : IsTotal DistRow pdLE :=
  ⟨by intro a b; unfold pdLE; omega⟩

instance : IsTrans DistRow pdLE :=
  ⟨by intro a b c; unfold pdLE; omega⟩

/-- The `ORDER BY supporters DESC` relation of the candidate-scoped district
split — the only ordering that query requests. -/
def cdLE (a b : DistRow) : Prop := b.supporters ≤ a.supporters

instance : DecidableRel cdLE := fun a b => by
  unfold cdLE
  infer_instance

instance : IsTotal DistRow cdLE :=
  ⟨by intro a b; unfold cdLE; omega⟩

instance : IsTrans DistRow cdLE :=
  ⟨by intro a b c; unfold cdLE; omega⟩

/-- One row of `GET /api/party-districts` for district `d`:
`COUNT(v.id)` over the voters whose `district_id` references `d`. -/
def partyDistrictRow (s : Store) (d : District) : DistRow :=
  ⟨d.id, d.name, d.official_voters,
   (s.voters.filter (fun v => decide (v.district_id = some d.id))).length⟩

/-- The `GET /api/party-districts` query. -/
def partyDistricts (s : Store) : List DistRow :=
  List.insertionSort pdLE (s.districts.map (partyDistrictRow s))

/-- One row of the candidate-scoped district split inside
`GET /api/candidate/:id`: the voter join is additionally filtered by
`v.candidate_id = ?`. -/
def candDistrictRow (s : Store) (cid : Nat) (d : District) : DistRow :=
  ⟨d.id, d.name, d.official_voters,
   (s.voters.filter (fun v =>
     decide (v.district_id = some d.id) && decide (v.candidate_id = cid))).length⟩

/-- The candidate-scoped district split (`byDistrict`), which orders only by
`supporters DESC`. -/
def candDistricts (s : Store) (cid : Nat) : List DistRow :=
  List.insertionSort cdLE (s.districts.map (candDistrictRow s cid))

/-- Store exhibiting claim C6's failure: two districts with equal supporter
counts whose scan order disagrees with `official_voters` descending. -/
def exD : Store :=
  { partyThreshold := 0,
    districts := [⟨1, "D1", none, 10⟩, ⟨2, "D2", none, 20⟩],
    candidates := [⟨1, "Alice", some 1, 0⟩],
    voters := [],
    nextId := 1 }

/-- Counterexample to claim C6 as stated: in the candidate-scoped district
split the two districts tie at 0 supporters, yet the district with
`official_voters = 10` is listed before the one with `official_voters = 20` —
the query's `ORDER BY supporters DESC` has no `official_voters` tiebreaker. -/
theorem district_order_counterexample :
    candDistricts exD 1 = [⟨1, "D1", 10, 0⟩, ⟨2, "D2", 20, 0⟩] ∧
    ¬ ((20 : Int) ≤ 10) := by
  constructor
  · decide
  · decide

/-- Claim C6 as amended: both district-distribution forms return exactly one
row per district with the exact supporter count (party-wide or filtered to
the candidate); the party-wide form is ordered by supporters descending with
ties broken by `official_voters` descending, while the candidate-scoped form
is ordered by supporters descending only. -/
theorem district_distribution_amended (s : Store) (cid : Nat) :
    List.Sorted pdLE (partyDistricts s) ∧
    (partyDistricts s).Perm (s.districts.map (partyDistrictRow s)) ∧
    (∀ d ∈ s.districts,
      (partyDistrictRow s d).supporters
        = (s.voters.filter (fun v => decide (v.district_id = some d.id))).length) ∧
    List.Sorted cdLE (candDistricts s cid) ∧
    (candDistricts s cid).Perm (s.districts.map (candDistrictRow s cid)) ∧
    ∀ d ∈ s.districts,
      (candDistrictRow s cid d).supporters
        = (s.voters.filter (fun v =>
            decide (v.district_id = some d.id) && decide (v.candidate_id = cid))).length :=
  ⟨List.sorted_insertionSort pdLE _, List.perm_insertionSort pdLE _,
   fun _ _ => rfl,
   List.sorted_insertionSort cdLE _, List.perm_insertionSort cdLE _,
   fun _ _ => rfl⟩

/-- Concrete instantiation of the amended claim C6 on the example store:
district North holds 1 supporter and both query forms are sorted. -/
theorem district_distribution_amended_witness :
    (partyDistrictRow exS ⟨1, "North", none, 100⟩).supporters = 1 ∧
    List.Sorted pdLE (partyDistricts exS) ∧
    List.Sorted cdLE (candDistricts exS 1) := by
  have h := district_distribution_amended exS 1
  exact ⟨(h.2.2.1 ⟨1, "North", none, 100⟩ (by decide)).trans (by decide),
         h.1, h.2.2.2.1⟩

/-- Response of the first step of the candidate full view:
`notFound404` carries status 404 with `ok:false` and the fixed message
`Candidate not found`; `serverError500` carries status 500 with the store
error message passed through; `okView` proceeds to the sub-queries. -/
inductive CandResponse where
  | notFound404
  | serverError500 (msg : String)
  | okView (c : Candidate)
deriving DecidableEq, Repr

/-- First step of `GET /api/candidate/:id` in the composite-view server: the
candidate-lookup callback is `(e, cand) => { if (e || !cand) return 404 }`,
so a store error `e` takes the same 404 `Candidate not found` branch as an
unknown id. -/
def candidateViewHead : Except String (Option Candidate) → CandResponse
  | .error _ => .notFound404
  | .ok none => .notFound404
  | .ok (some c) => .okView c

/-- The candidate lookup feeding `candidateViewHead`:
`SELECT c.* FROM candidates c WHERE c.id = ?`. -/
def lookupCandidate (s : Store) (id : Nat) : Option Candidate :=
  s.candidates.find? (fun c => decide (c.id = id))

/-- Claim C7 evaluated on the code: a failing candidate-lookup query (a
`StoreError`) is answered with the 404 `Candidate not found` response — not
with a 500 that passes the store message through — while an unknown id also
yields the 404; the 500 pass-through claimed by the spec is unreachable for
this first query. -/
theorem candidate_view_store_error :
    (∀ msg : String, candidateViewHead (Except.error msg) = CandResponse.notFound404) ∧
    candidateViewHead (Except.ok (lookupCandidate emptyStore 1))
      = CandResponse.notFound404 ∧
    candidateViewHead (Except.error "SQLITE_IOERR: disk I/O error")
      ≠ CandResponse.serverError500 "SQLITE_IOERR: disk I/O error" :=
  ⟨fun _ => rfl, rfl, by decide⟩

/-- The `DELETE /api/districts/:id` handler: a hard delete of the district
row alone. -/
def deleteDistrict (s : Store) (id : Nat) : Store :=
  { s with districts := s.districts.filter (fun d => decide (d.id ≠ id)) }

/-- Claim C8: deleting a district removes only district rows — candidates and
voters are untouched and the delete never fails — and a candidate that
referenced the deleted district still appears in the candidate list, now with
a null district label (`LEFT JOIN` finds no row). -/
theorem delete_district_no_cascade (s : Store) (id : Nat) :
    (deleteDistrict s id).candidates = s.candidates ∧
    (deleteDistrict s id).voters = s.voters ∧
    ∀ c ∈ s.candidates, c.district_id = some id →
      (candRow (deleteDistrict s id) c).district = none ∧
      candRow (deleteDistrict s id) c ∈ candidatesQuery (deleteDistrict s id) := by
  refine ⟨rfl, rfl, ?_⟩
  intro c hc hcd
  constructor
  · have hnone : (deleteDistrict s id).districts.find?
        (fun d => decide (c.district_id = some d.id)) = none := by
      rw [List.find?_eq_none]
      intro d hd
      have hd2 : d.id ≠ id := by
        have hm := List.mem_filter.mp hd
        simpa using hm.2
      simp only [decide_eq_true_eq, hcd]
      intro h
      exact hd2 (Option.some.inj h).symm
    show ((deleteDistrict s id).districts.find?
        (fun d => decide (c.district_id = some d.id))).map District.name = none
    rw [hnone]
    rfl
  · exact (List.perm_insertionSort candLE _).mem_iff.mpr
      (List.mem_map_of_mem (candRow (deleteDistrict s id)) hc)

/-- Concrete instantiation of claim C8: deleting district 1 of the example
store leaves both candidates in place and Alice's district label becomes
null. -/
theorem delete_district_no_cascade_witness :
    (deleteDistrict exS 1).candidates = exS.candidates ∧
    (candRow (deleteDistrict exS 1) exC1).district = none := by
  have h := delete_district_no_cascade exS 1
  exact ⟨h.1, (h.2.2 exC1 (by decide) (by decide)).1⟩

/-- Payload of `PUT /api/voters/:id`: each field is absent (`undefined`, not
updated) or present with a JavaScript value, where the inner `Option` holds
`null`/falsy payloads as the code's `x || null` will see them. -/
structure VoterUpdate where
  candidate_id : Option (Option Nat)
  assistant_id : Option (Option Nat)
  full_name : Option (Option String)
  dob : Option (Option String)
  district_id : Option (Option Nat)
  polling_center : Option (Option String)
  electoral_card : Option (Option String)
deriving DecidableEq, Repr

/-- Outcome of `PUT /api/voters/:id`: the hard 400 duplicate-card rejection,
a 500 from the `NOT NULL` storage constraint, or success with the number of
rows the `UPDATE` matched. -/
inductive UpdateResult where
  | badRequest (msg : String)
  | constraintError
  | okChanges (changes : Nat)
deriving DecidableEq, Repr

/-- The update handler's duplicate check: when `electoral_card` is present
and truthy, `SELECT id FROM voters WHERE electoral_card = ? AND id <> ?`. -/
def cardConflict (s : Store) (id : Nat) (u : VoterUpdate) : Bool :=
  match u.electoral_card with
  | some c => truthyS c &&
      s.voters.any (fun v => decide (v.electoral_card = c) && decide (v.id ≠ id))
  | none => false

/-- The `!fields.length` check: at least one updatable field is present. -/
def anyField (u : VoterUpdate) : Bool :=
  u.candidate_id.isSome || u.assistant_id.isSome || u.full_name.isSome ||
    u.dob.isSome || u.district_id.isSome || u.polling_center.isSome ||
    u.electoral_card.isSome

/-- The `UPDATE` would write `NULL` into a `NOT NULL` column
(`candidate_id` or `full_name`) of an existing row, which SQLite rejects. -/
def nullViolation (s : Store) (id : Nat) (u : VoterUpdate) : Bool :=
  (s.voters.any (fun v => decide (v.id = id))) &&
    ((match u.candidate_id with
      | some x => !truthyN x
      | none => false) ||
     (match u.full_name with
      | some x => !truthyS x
      | none => false))

/-- The `SET col = ?` assignments: every present field is stored as
`value || null`. -/
def applyUpdate (u : VoterUpdate) (v : Voter) : Voter :=
  { v with
    candidate_id := match u.candidate_id with
      | some x => (jsOrNullN x).getD 0
      | none => v.candidate_id,
    assistant_id := match u.assistant_id with
      | some x => jsOrNullN x
      | none => v.assistant_id,
    full_name := match u.full_name with
      | some x => jsOrNullS x
      | none => v.full_name,
    dob := match u.dob with
      | some x => jsOrNullS x
      | none => v.dob,
    district_id := match u.district_id with
      | some x => jsOrNullN x
      | none => v.district_id,
    polling_center := match u.polling_center with
      | some x => jsOrNullS x
      | none => v.polling_center,
    electoral_card := match u.electoral_card with
      | some x => jsOrNullS x
      | none => v.electoral_card }

/-- The `PUT /api/voters/:id` handler: reject a card held by a different row
with a hard 400 before running any `UPDATE`; succeed as a no-op when no field
is present; otherwise run the `UPDATE` on the row with the given id. -/
def updateVoter (s : Store) (id : Nat) (u : VoterUpdate) : UpdateResult × Store :=
  if cardConflict s id u then
    (.badRequest "Electoral card already used", s)
  else if !anyField u then
    (.okChanges 0, s)
  else if nullViolation s id u then
    (.constraintError, s)
  else
    (.okChanges (s.voters.countP (fun v => decide (v.id = id))),
     { s with voters := s.voters.map (fun v =>
         if v.id = id then applyUpdate u v else v) })

/-- Claim C9: a voter update supplying a non-empty electoral card held by a
different row fails with the hard 400 `Electoral card already used` and the
store is unchanged; when no other row holds the card (in particular when the
voter re-asserts its own card — the check excludes the voter's id) the update
runs, and every stored row with the target id carries the card afterwards. -/
theorem update_voter_card_conflict (s : Store) (id : Nat) (u : VoterUpdate)
    (c : String) (hpres : u.electoral_card = some (some c)) (hc : c ≠ "") :
    ((∃ v ∈ s.voters, v.electoral_card = some c ∧ v.id ≠ id) →
      updateVoter s id u = (.badRequest "Electoral card already used", s)) ∧
    ((∀ v ∈ s.voters, v.electoral_card = some c → v.id = id) →
      nullViolation s id u = false →
      updateVoter s id u
          = (.okChanges (s.voters.countP (fun v => decide (v.id = id))),
             { s with voters := s.voters.map (fun v =>
                 if v.id = id then applyUpdate u v else v) }) ∧
      ∀ w ∈ (updateVoter s id u).2.voters, w.id = id →
        w.electoral_card = some c) := by
  constructor
  · rintro ⟨v, hv, hvc, hvid⟩
    have hcc : cardConflict s id u = true := by
      unfold cardConflict
      rw [hpres]
      rw [Bool.and_eq_true]
      refine ⟨by simp [truthyS, hc], ?_⟩
      rw [List.any_eq_true]
      exact ⟨v, hv, by simp [hvc, hvid]⟩
    unfold updateVoter
    rw [hcc]
    rfl
  · intro hown hnn
    have hcc : cardConflict s id u = false := by
      unfold cardConflict
      rw [hpres]
      have hany : s.voters.any
          (fun v => decide (v.electoral_card = some c) && decide (v.id ≠ id))
            = false := by
        rw [List.any_eq_false]
        intro v hv
        simp only [Bool.and_eq_true, decide_eq_true_eq, not_and]
        intro hvc hne
        exact hne (hown v hv hvc)
      show (truthyS (some c) && s.voters.any
        (fun v => decide (v.electoral_card = some c) && decide (v.id ≠ id))) = false
      rw [hany, Bool.and_false]
    have hf : anyField u = true := by
      unfold anyField
      rw [hpres]
      simp
    have heq : updateVoter s id u
        = (.okChanges (s.voters.countP (fun v => decide (v.id = id))),
           { s with voters := s.voters.map (fun v =>
               if v.id = id then applyUpdate u v else v) }) := by
      unfold updateVoter
      rw [hcc, hf, hnn]
      rfl
    refine ⟨heq, ?_⟩
    intro w hw hwid
    rw [heq] at hw
    simp only [List.mem_map] at hw
    obtain ⟨v, hv, hvw⟩ := hw
    by_cases hvid : v.id = id
    · rw [if_pos hvid] at hvw
      rw [← hvw]
      show (match u.electoral_card with
        | some x => jsOrNullS x
        | none => v.electoral_card) = some c
      rw [hpres]
      simp [jsOrNullS, truthyS, hc]
    · rw [if_neg hvid] at hvw
      rw [← hvw] at hwid
      exact absurd hwid hvid

/-- Update payload carrying only an electoral card. -/
def cardOnlyUpdate (c : String) : VoterUpdate :=
  ⟨none, none, none, none, none, none, some (some c)⟩

/-- Concrete instantiation of claim C9 on the example store: giving voter 1
the card `C200` (held by voter 3) is rejected with the hard 400 and nothing
changes; re-asserting voter 1's own card `C100` succeeds, matching one row. -/
theorem update_voter_card_conflict_witness :
    updateVoter exS 1 (cardOnlyUpdate "C200")
      = (.badRequest "Electoral card already used", exS) ∧
    (updateVoter exS 1 (cardOnlyUpdate "C100")).1 = .okChanges 1 := by
  have h1 := (update_voter_card_conflict exS 1 (cardOnlyUpdate "C200") "C200"
    (by decide) (by decide)).1
  have h2 := (update_voter_card_conflict exS 1 (cardOnlyUpdate "C100") "C100"
    (by decide) (by decide)).2 (by decide) (by decide)
  refine ⟨h1 (by decide), ?_⟩
  exact (congrArg Prod.fst h2.1).trans (by decide)

/-- A query-string number as `parseInt` produces it: NaN or an integer. -/
inductive JsNum where
  | nan
  | intVal (n : Int)
deriving DecidableEq, Repr

/-- `Math.max(a, x)` — NaN-propagating. -/
def jsMax (a : Int) : JsNum → JsNum
  | .nan => .nan
  | .intVal n => .intVal (max a n)

/-- `Math.min(a, x)` — NaN-propagating. -/
def jsMin (a : Int) : JsNum → JsNum
  | .nan => .nan
  | .intVal n => .intVal (min a n)

/-- `Math.max(1, parseInt(req.query.page || '1', 10))`: `none` models a
missing or empty parameter (the `'1'` default applies), `some .nan` a
non-numeric one. -/
def effPage (p : Option JsNum) : JsNum :=
  jsMax 1 (p.getD (.intVal 1))

/-- `Math.min(50, Math.max(5, parseInt(req.query.size || '20', 10)))`. -/
def effSize (sz : Option JsNum) : JsNum :=
  jsMin 50 (jsMax 5 (sz.getD (.intVal 20)))

def listStartsWith : List Char → List Char → Bool
  | _, [] => true
  | [], _ :: _ => false
  | a :: as, b :: bs => decide (a = b) && listStartsWith as bs

/-- Substring containment, modelling SQL `LIKE '%pat%'`. -/
def strContains (hay pat : String) : Bool :=
  (List.range (hay.toList.length + 1)).any
    (fun i => listStartsWith (hay.toList.drop i) pat.toList)

/-- The search filter of `GET /api/admin/voters`:
`full_name LIKE ? OR IFNULL(electoral_card,'') LIKE ?`. -/
def voterMatches (search : String) (v : Voter) : Bool :=
  strContains (v.full_name.getD "") search ||
    strContains (v.electoral_card.getD "") search

/-- The `ORDER BY id DESC` relation of the admin voter listing. -/
def idGE (a b : Voter) : Prop := b.id ≤ a.id

instance : DecidableRel idGE := fun a b => by
  unfold idGE
  infer_instance

instance : IsTotal Voter idGE :=
  ⟨by intro a b; unfold idGE; omega⟩

instance : IsTrans Voter idGE :=
  ⟨by intro a b c; unfold idGE; omega⟩

/-- The `GET /api/admin/voters` item list: filter, sort by id descending,
then `LIMIT size OFFSET (page-1)*size`.  When either computed paging value is
NaN the SQL receives a non-numeric bind and the clamped-paging model does not
apply, which the embedding records as `none`. -/
def adminVotersItems (s : Store) (search : String) (p sz : Option JsNum) :
    Option (List Voter) :=
  match effPage p, effSize sz with
  | .intVal pg, .intVal n =>
      some ((((List.insertionSort idGE
          (if search = "" then s.voters
           else s.voters.filter (voterMatches search))).drop
            (((pg - 1) * n).toNat)).take n.toNat))
  | _, _ => none

/-- Counterexample to claim C10 as stated: a non-numeric `size` parameter
parses to NaN, and `Math.min(50, Math.max(5, NaN))` is NaN — the effective
page size is not clamped into `[5, 50]` for every query parameter. -/
theorem admin_paging_counterexample :
    effSize (some JsNum.nan) = JsNum.nan ∧
    adminVotersItems exS "" none (some JsNum.nan) = none :=
  ⟨rfl, rfl⟩

/-- Claim C10 as amended: whenever the `page` and `size` parameters are
missing or parse to an integer, the effective page is at least 1, the
effective size lies in `[5, 50]`, and the response holds at most 50 voter
rows; a non-numeric parameter instead propagates NaN past the clamp. -/
theorem admin_paging_amended (p sz : Option JsNum)
    (hp : p = none ∨ ∃ n : Int, p = some (.intVal n))
    (hs : sz = none ∨ ∃ m : Int, sz = some (.intVal m)) :
    (∃ j : Int, effPage p = .intVal j ∧ 1 ≤ j) ∧
    (∃ k : Int, effSize sz = .intVal k ∧ 5 ≤ k ∧ k ≤ 50) ∧
    ∀ (s : Store) (search : String), ∃ items,
      adminVotersItems s search p sz = some items ∧ items.length ≤ 50 := by
  obtain ⟨j, hpj, hj1⟩ : ∃ j : Int, effPage p = .intVal j ∧ 1 ≤ j := by
    rcases hp with h | ⟨n, h⟩ <;> subst h
    · exact ⟨1, rfl, le_refl 1⟩
    · exact ⟨max 1 n, rfl, le_max_left 1 n⟩
  obtain ⟨k, hsk, hk5, hk50⟩ : ∃ k : Int, effSize sz = .intVal k ∧ 5 ≤ k ∧ k ≤ 50 := by
    rcases hs with h | ⟨m, h⟩ <;> subst h
    · exact ⟨20, rfl, by norm_num, by norm_num⟩
    · refine ⟨min 50 (max 5 m), rfl, ?_, min_le_left _ _⟩
      have h5 := le_max_left 5 m
      omega
  refine ⟨⟨j, hpj, hj1⟩, ⟨k, hsk, hk5, hk50⟩, ?_⟩
  intro s search
  unfold adminVotersItems
  rw [hpj, hsk]
  refine ⟨_, rfl, ?_⟩
  calc (List.take k.toNat _).length ≤ k.toNat := List.length_take_le _ _
    _ ≤ 50 := by omega

/-- Concrete instantiation of the amended claim C10: with `page=0` and
`size=999` the effective paging is clamped and the example store's response
holds at most 50 rows. -/
theorem admin_paging_amended_witness :
    ((some (JsNum.intVal 0) : Option JsNum) = none ∨
      ∃ n : Int, (some (JsNum.intVal 0) : Option JsNum) = some (.intVal n)) ∧
    ((∃ j : Int, effPage (some (JsNum.intVal 0)) = .intVal j ∧ 1 ≤ j) ∧
     (∃ k : Int, effSize (some (JsNum.intVal 999)) = .intVal k ∧ 5 ≤ k ∧ k ≤ 50) ∧
     ∀ (s : Store) (search : String), ∃ items,
       adminVotersItems s search (some (JsNum.intVal 0)) (some (JsNum.intVal 999))
         = some items ∧ items.length ≤ 50) :=
  ⟨Or.inr ⟨0, rfl⟩,
   admin_paging_amended (some (JsNum.intVal 0)) (some (JsNum.intVal 999))
     (Or.inr ⟨0, rfl⟩) (Or.inr ⟨999, rfl⟩)⟩

end CitizenVote
